import Mathlib

/-!
Verification of the `ai-code-patterns` command-line tool.

The tool sends source files to a chat model and writes the answer back.  The
parts under verification are:

* `extractCodeBlock` (compiled form in `dist/generateComment.test.js`,
  lines 25-33; it carries the regex `s` flag and the comment
  "s is needed to match newlines", and it is the version the repository's
  test-suite exercises — the earlier draft in `unnamed/part_008` lacks the
  `s` flag and would fail the multi-line swift test):

    function extractCodeBlock(response) {
        const count = response.match(/BT BT BT [^nl]* nl (.*?) nl BT BT BT/gs);
        const match = response.match(/BT BT BT [^nl]* nl (.*?) nl BT BT BT/s);
        if (!count || count.length !== 1 || match === null || match.length !== 2) {
            throw new Error(`Expected exactly one code block, got N`);
        }
        return match[1];
    }

  (`BT` stands for a backtick, `nl` for a newline; N is `count ? count.length : 0`.)

* `generateComment` (`src/generateComment.ts`),
* `requiresProcessing` and `processFile` (current `index.ts`, `unnamed/part_006`).

Strings are modelled as `List Char`; JavaScript regex matching of the one
pattern above is modelled by the explicit functions below, following the
backtracking semantics of the pattern:

* the engine tries each start position from the left (`findMatch`);
* at a start position the three backticks are literal (`matchFenceAt`);
* `[^nl]*` is greedy but, being followed by a mandatory newline which it can
  never consume, it deterministically eats everything up to the first newline
  (`dropLang`);
* `(.*?)` with the `s` flag is lazy over arbitrary characters, so it stops at
  the first position where the remainder `nl BT BT BT` matches (`findClose`);
* the `g` search restarts right after the end of each match (`gMatchesF`).
-/

/-- The backtick character, written via its code point. -/
def tick : Char := Char.ofNat 96

/-- Model of the regex fragment `[^nl]*` followed by a mandatory newline:
consume every character up to and including the first newline, failing when
the input holds no newline.  The consumed prefix (minus the newline) is the
language tag of the opening fence. -/
def dropLang : List Char → Option (List Char)
  | [] => none
  | c :: cs => if c = '\n' then some cs else dropLang cs

/-- Does the text begin with a newline followed by three backticks (the
closing delimiter `nl BT BT BT` of the pattern)?  On success, return the text
right after the third backtick, i.e. right after the whole regex match. -/
def isClose (s : List Char) : Option (List Char) :=
  match s with
  | a :: b :: c :: d :: rest =>
    if a = '\n' ∧ b = tick ∧ c = tick ∧ d = tick then some rest else none
  | _ => none

/-- Model of the lazy `(.*?)` followed by `nl BT BT BT`: scan for the first
position where the closing delimiter starts; the characters before it form
the capture group, and the text after the three closing backticks is where
the global search resumes.  `none` when no closing delimiter occurs. -/
def findClose : List Char → Option (List Char × List Char)
  | [] => none
  | c :: cs =>
    match isClose (c :: cs) with
    | some rest => some ([], rest)
    | none =>
      match findClose cs with
      | some (content, rest) => some (c :: content, rest)
      | none => none

/-- Attempt the fence pattern at one fixed start position: three literal
backticks, then the language tag up to a newline, then the lazily matched
content up to the closing delimiter.  Returns (capture group, text after the
match). -/
def matchFenceAt (s : List Char) : Option (List Char × List Char) :=
  match s with
  | a :: b :: c :: rest =>
    if a = tick ∧ b = tick ∧ c = tick then
      match dropLang rest with
      | some afterOpen => findClose afterOpen
      | none => none
    else none
  | _ => none

/-- Leftmost match of the fence pattern: try `matchFenceAt` at every start
position from the left, as the regex engine does.  This models
`response.match(re)` (without the `g` flag): `none` is JavaScript's `null`,
and on success the pair carries the capture group `match[1]` and the text
after the match. -/
def findMatch : List Char → Option (List Char × List Char)
  | [] => none
  | c :: cs =>
    match matchFenceAt (c :: cs) with
    | some r => some r
    | none => findMatch cs

/-- Fuel-indexed global search: collect non-overlapping matches from the
left, resuming after the end of each match.  The fuel only serves termination
bookkeeping; `gMatchesF_congr` below shows any fuel above the text length
gives the same list, so `gMatches` is the plain unbounded iteration. -/
def gMatchesF : Nat → List Char → List (List Char)
  | 0, _ => []
  | fuel + 1, s =>
    match findMatch s with
    | none => []
    | some (content, rest) => content :: gMatchesF fuel rest

/-- Model of `response.match(re-with-g)`: the list of capture groups of all
non-overlapping matches, found left to right.  JavaScript returns `null`
rather than an empty array when there is no match; the model uses `[]`, and
`count ? count.length : 0` is `(gMatches response).length` in both cases.
(The JavaScript array holds the full match texts, but only its length and
nullity are ever consumed, so carrying the capture groups instead is
harmless.) -/
def gMatches (s : List Char) : List (List Char) :=
  gMatchesF (s.length + 1) s

/-- Model of `extractCodeBlock` (compiled form in
`dist/generateComment.test.js`, lines 25-33).  The thrown `Error` is modelled
as `Except.error n` where `n` is the reported count `count ? count.length : 0`.
The JavaScript guard is
`!count || count.length !== 1 || match === null || match.length !== 2`;
`!count` is subsumed by `count.length !== 1` (a null `count` reports 0), and
`match.length !== 2` never fires because the pattern has exactly one capture
group, so a non-null match array always has length 2 — the model keeps the
`match === null` branch and drops the vacuous length test. -/
def extractCodeBlock (response : List Char) : Except Nat (List Char) :=
  let count := gMatches response
  match findMatch response with
  | some (content, _) =>
    if count.length = 1 then Except.ok content
    else Except.error count.length
  | none => Except.error count.length

/-- Model of `generateComment` (`src/generateComment.ts`): the marker string
written into processed files.  The JavaScript guard `if (date)` is a
truthiness test, so an empty-string date behaves like an absent one. -/
def generateComment (promptName : String) (date : Option String) : String :=
  let comment := "// performed \"" ++ promptName ++ "\" review"
  match date with
  | some d => if d = "" then comment else comment ++ " on " ++ d
  | none => comment

/-- Model of `requiresProcessing` (`unnamed/part_006`, lines 31-43): a file
still needs processing unless its content already contains the dateless
marker.  `String.prototype.includes` is substring containment, modelled by
`<:+:` on character lists; the file read is modelled by passing the content. -/
def requiresProcessing (fileContent : List Char) (promptName : String) : Bool :=
  if (generateComment promptName none).data <:+: fileContent then false else true

/-- Model of the pure decision core of `processFile` (`unnamed/part_006`,
lines 60-92).  The file read and the model call are modelled by the
`fileContent` and `response` arguments; the result is the content written
back, or `none` when nothing is written (skip, or `extractCodeBlock` threw —
the `try`/`catch` turns the throw into an early exit before the write). -/
def processFile (fileContent : List Char) (promptName date : String)
    (response : List Char) : Option (List Char) :=
  let generatedComment := generateComment promptName (some date)
  if generatedComment.data <:+: fileContent then none
  else
    match extractCodeBlock response with
    | Except.ok extractedCode => some (generatedComment.data ++ '\n' :: extractedCode)
    | Except.error _ => none

/-- A successful `dropLang` consumes at least the newline, so the remaining
text is strictly shorter. -/
theorem dropLang_length {s t : List Char} (h : dropLang s = some t) :
    t.length < s.length := by
  induction s with
  | nil => simp [dropLang] at h
  | cons c cs ih =>
    rw [dropLang] at h
    by_cases hc : c = '\n'
    · rw [if_pos hc] at h
      simp only [Option.some.injEq] at h
      subst h
      simp
    · rw [if_neg hc] at h
      exact Nat.lt_trans (ih h) (by simp)

/-- A successful `dropLang` splits the text as a newline-free language tag,
the newline, and the rest. -/
theorem dropLang_spec {s t : List Char} (h : dropLang s = some t) :
    ∃ lang, (∀ x ∈ lang, x ≠ '\n') ∧ s = lang ++ '\n' :: t := by
  induction s with
  | nil => simp [dropLang] at h
  | cons c cs ih =>
    rw [dropLang] at h
    by_cases hc : c = '\n'
    · rw [if_pos hc] at h
      simp only [Option.some.injEq] at h
      subst h
      exact ⟨[], by simp, by simp [hc]⟩
    · rw [if_neg hc] at h
      obtain ⟨lang, hlang, hs⟩ := ih h
      exact ⟨c :: lang, by simpa [hc] using hlang, by simp [hs]⟩

/-- A successful `isClose` means the text starts with the closing delimiter. -/
theorem isClose_spec {s rest : List Char} (h : isClose s = some rest) :
    s = '\n' :: tick :: tick :: tick :: rest := by
  unfold isClose at h
  split at h
  · split at h
    · simp_all
    · exact absurd h (by simp)
  · exact absurd h (by simp)

/-- A successful `findClose` splits the text as the capture group, the
closing delimiter, and the rest. -/
theorem findClose_spec {s c rest : List Char} (h : findClose s = some (c, rest)) :
    s = c ++ '\n' :: tick :: tick :: tick :: rest := by
  induction s generalizing c with
  | nil => simp [findClose] at h
  | cons a as ih =>
    rw [findClose] at h
    cases hc : isClose (a :: as) with
    | some r =>
      rw [hc] at h
      simp only [Option.some.injEq, Prod.mk.injEq] at h
      obtain ⟨rfl, rfl⟩ := h
      simpa using isClose_spec hc
    | none =>
      rw [hc] at h
      cases hf : findClose as with
      | none => rw [hf] at h; simp at h
      | some p =>
        obtain ⟨p1, p2⟩ := p
        rw [hf] at h
        simp only [Option.some.injEq, Prod.mk.injEq] at h
        obtain ⟨rfl, rfl⟩ := h
        simpa using ih hf

/-- A successful `findClose` leaves a strictly shorter rest. -/
theorem findClose_length {s c rest : List Char} (h : findClose s = some (c, rest)) :
    rest.length < s.length := by
  rw [findClose_spec h]
  simp
  omega

/-- A successful `matchFenceAt` means the text is exactly the fence pattern
followed by the rest: three backticks, a newline-free language tag, a
newline, the capture group, and the closing delimiter. -/
theorem matchFenceAt_spec {s c rest : List Char} (h : matchFenceAt s = some (c, rest)) :
    ∃ lang, (∀ x ∈ lang, x ≠ '\n') ∧
      s = tick :: tick :: tick ::
        (lang ++ '\n' :: (c ++ '\n' :: tick :: tick :: tick :: rest)) := by
  unfold matchFenceAt at h
  split at h
  case _ a b c' r =>
    split at h
    case isTrue htick =>
      obtain ⟨rfl, rfl, rfl⟩ := htick
      cases hd : dropLang r with
      | none => rw [hd] at h; simp at h
      | some afterOpen =>
        rw [hd] at h
        obtain ⟨lang, hlang, hr⟩ := dropLang_spec hd
        exact ⟨lang, hlang, by rw [hr, findClose_spec h]⟩
    case isFalse => simp at h
  case _ => simp at h

/-- A successful `matchFenceAt` leaves a strictly shorter rest. -/
theorem matchFenceAt_length {s c rest : List Char} (h : matchFenceAt s = some (c, rest)) :
    rest.length < s.length := by
  obtain ⟨lang, _, hs⟩ := matchFenceAt_spec h
  rw [hs]
  simp
  omega

/-- A successful `findMatch` splits the text as an unmatched prelude followed
by the full fence pattern and the rest. -/
theorem findMatch_spec {r c rest : List Char} (h : findMatch r = some (c, rest)) :
    ∃ pre lang, (∀ x ∈ lang, x ≠ '\n') ∧
      r = pre ++ tick :: tick :: tick ::
        (lang ++ '\n' :: (c ++ '\n' :: tick :: tick :: tick :: rest)) := by
  induction r with
  | nil => simp [findMatch] at h
  | cons a as ih =>
    rw [findMatch] at h
    cases hm : matchFenceAt (a :: as) with
    | some p =>
      rw [hm] at h
      simp only [Option.some.injEq] at h
      subst h
      obtain ⟨lang, hlang, hs⟩ := matchFenceAt_spec hm
      exact ⟨[], lang, hlang, by simpa using hs⟩
    | none =>
      rw [hm] at h
      obtain ⟨pre, lang, hlang, hs⟩ := ih h
      exact ⟨a :: pre, lang, hlang, by simp [hs]⟩

/-- A successful `findMatch` leaves a strictly shorter rest. -/
theorem findMatch_length {r c rest : List Char} (h : findMatch r = some (c, rest)) :
    rest.length < r.length := by
  induction r with
  | nil => simp [findMatch] at h
  | cons a as ih =>
    rw [findMatch] at h
    cases hm : matchFenceAt (a :: as) with
    | some p =>
      rw [hm] at h
      simp only [Option.some.injEq] at h
      subst h
      exact matchFenceAt_length hm
    | none =>
      rw [hm] at h
      exact Nat.lt_trans (ih h) (by simp)

/-- Every match contains a newline, so newline-free text never matches. -/
theorem findMatch_eq_none_of_no_newline {r : List Char} (h : '\n' ∉ r) :
    findMatch r = none := by
  cases hm : findMatch r with
  | none => rfl
  | some p =>
    obtain ⟨c, rest⟩ := p
    obtain ⟨pre, lang, _, hs⟩ := findMatch_spec hm
    exact absurd (by rw [hs]; simp) h

/-- The fuel never binds: any two fuels above the text length produce the
same match list. -/
theorem gMatchesF_congr :
    ∀ f1 : Nat, ∀ s : List Char, s.length < f1 → ∀ f2 : Nat, s.length < f2 →
      gMatchesF f1 s = gMatchesF f2 s := by
  intro f1
  induction f1 with
  | zero => intro s h; omega
  | succ n ih =>
    intro s hs f2 hf2
    cases f2 with
    | zero => omega
    | succ m =>
      rw [gMatchesF, gMatchesF]
      cases hm : findMatch s with
      | none => rfl
      | some p =>
        obtain ⟨c, rest⟩ := p
        dsimp only
        have hlt := findMatch_length hm
        rw [ih rest (by omega) m (by omega)]

/-- `gMatches` satisfies the unbounded iteration equation of the global
search: one leftmost match, then the global search on the rest. -/
theorem gMatches_eq (s : List Char) :
    gMatches s =
      match findMatch s with
      | none => []
      | some (content, rest) => content :: gMatches rest := by
  rw [gMatches, gMatchesF]
  cases hm : findMatch s with
  | none => rfl
  | some p =>
    obtain ⟨c, rest⟩ := p
    dsimp only
    have hlt := findMatch_length hm
    rw [gMatchesF_congr s.length rest (by omega) (rest.length + 1) (by omega)]
    rfl

/-- The global search finds nothing exactly when the single search finds
nothing. -/
theorem gMatches_eq_nil_iff (s : List Char) :
    gMatches s = [] ↔ findMatch s = none := by
  rw [gMatches_eq]
  cases hm : findMatch s with
  | none => simp
  | some p => obtain ⟨c, rest⟩ := p; simp

example : extractCodeBlock ("Here is some text\n```typescript\ncode block\n```\nMore text".data)
    = Except.ok ("code block".data) := by rfl

example : extractCodeBlock ("Just some text without code".data) = Except.error 0 := by rfl

example : extractCodeBlock
    ("Here is some text\n```typescript\nfirst block\n```\nMore text\n```typescript\nsecond block\n```".data)
    = Except.error 2 := by rfl

example : generateComment "example" none = "// performed \"example\" review" := by decide

example : generateComment "example" (some "2023-10-01")
    = "// performed \"example\" review on 2023-10-01" := by decide

/-- With a present, non-empty date the truthiness guard fires, so the dated
marker is the dateless marker extended by " on " and the date. -/
theorem generateComment_some_of_ne {name d : String} (h : d ≠ "") :
    generateComment name (some d) = generateComment name none ++ " on " ++ d := by
  simp [generateComment, h]

/-- A non-empty string has a non-empty character list. -/
theorem data_ne_nil_of_ne_empty {d : String} (h : d ≠ "") : d.data ≠ [] := by
  intro hd
  exact h (String.ext (by simpa using hd))

/-- Claim C1: `extractCodeBlock` fails exactly when the number of
non-overlapping matches of the fence pattern is not one; the error carries
the observed count, and on text with no fence match it always fails with
count 0 (and never returns a value). -/
theorem extractCodeBlock_fails_iff_count_ne_one (r : List Char) :
    ((∃ e, extractCodeBlock r = Except.error e) ↔ (gMatches r).length ≠ 1)
    ∧ (∀ e, extractCodeBlock r = Except.error e → e = (gMatches r).length)
    ∧ (gMatches r = [] → extractCodeBlock r = Except.error 0) := by
  cases hm : findMatch r with
  | none =>
    have h0 : gMatches r = [] := (gMatches_eq_nil_iff r).2 hm
    refine ⟨?_, ?_, ?_⟩ <;> simp [extractCodeBlock, hm, h0]
  | some p =>
    obtain ⟨c, rest⟩ := p
    have hne : gMatches r ≠ [] := by
      intro h0
      rw [(gMatches_eq_nil_iff r).1 h0] at hm
      exact Option.noConfusion hm
    by_cases hl : (gMatches r).length = 1
    · refine ⟨?_, ?_, fun h0 => absurd h0 hne⟩ <;> simp [extractCodeBlock, hm, hl]
    · refine ⟨?_, ?_, fun h0 => absurd h0 hne⟩ <;> simp [extractCodeBlock, hm, hl]

/-- Witness for C1 at a concrete fence-free input. -/
theorem extractCodeBlock_fails_iff_count_ne_one_witness :
    gMatches ("Just some text without code".data) = []
    ∧ extractCodeBlock ("Just some text without code".data) = Except.error 0 :=
  ⟨by rfl, (extractCodeBlock_fails_iff_count_ne_one _).2.2 (by rfl)⟩

/-- Claim C2: on an input whose global search finds exactly one fenced block,
with inner content spanning several lines, `extractCodeBlock` succeeds and
returns the captured inner content verbatim — embedded newlines and
leading/trailing whitespace inside the fences included, with no trimming. -/
theorem extractCodeBlock_multiline_verbatim (r content rest : List Char)
    (hm : findMatch r = some (content, rest))
    (hnl : '\n' ∈ content)
    (hcount : (gMatches r).length = 1) :
    extractCodeBlock r = Except.ok content := by
  simp [extractCodeBlock, hm, hcount]

/-- Witness for C2: a block whose content has an embedded newline and
leading/trailing spaces comes back verbatim. -/
theorem extractCodeBlock_multiline_verbatim_witness :
    findMatch ("A\n```ts\n  x\ny  \n```\nB".data) = some ("  x\ny  ".data, "\nB".data)
    ∧ '\n' ∈ ("  x\ny  ".data)
    ∧ (gMatches ("A\n```ts\n  x\ny  \n```\nB".data)).length = 1
    ∧ extractCodeBlock ("A\n```ts\n  x\ny  \n```\nB".data) = Except.ok ("  x\ny  ".data) :=
  ⟨by rfl, by decide, by rfl,
    extractCodeBlock_multiline_verbatim _ _ _ (by rfl) (by decide) (by rfl)⟩

/-- Counterexample to claim C3 as stated: the date argument can be present
yet empty, and then the JavaScript truthiness guard `if (date)` drops the
" on date" suffix, so the output is not the dated form the claim requires
for every present date. -/
theorem generateComment_empty_date_counterexample :
    generateComment "a" (some "") = "// performed \"a\" review"
    ∧ generateComment "a" (some "") ≠ "// performed \"a\" review on " := by
  exact ⟨by rfl, by decide⟩

/-- Claim C3 (amended): for every non-empty name, `generateComment` returns
the dateless marker when the date is absent or empty, and the dated marker
when the date is present and non-empty; the name is interpolated verbatim
(multi-dot names are not stripped or truncated by this component). -/
theorem generateComment_builds_marker (name date : String) (hname : name ≠ "") :
    generateComment name none = "// performed \"" ++ name ++ "\" review"
    ∧ (date = "" →
        generateComment name (some date) = "// performed \"" ++ name ++ "\" review")
    ∧ (date ≠ "" →
        generateComment name (some date)
          = "// performed \"" ++ name ++ "\" review on " ++ date) := by
  refine ⟨rfl, fun h => by simp [generateComment, h], fun h => ?_⟩
  rw [generateComment_some_of_ne h]
  apply String.ext
  simp [generateComment, String.data_append, List.append_assoc]

/-- Witness for C3 (amended) at a multi-dot name and a real date. -/
theorem generateComment_builds_marker_witness :
    ("a.b.c" ≠ ("" : String))
    ∧ ("2023-10-01" ≠ ("" : String))
    ∧ generateComment "a.b.c" (some "2023-10-01")
        = "// performed \"" ++ "a.b.c" ++ "\" review on " ++ "2023-10-01" :=
  ⟨by decide, by decide,
    (generateComment_builds_marker "a.b.c" "2023-10-01" (by decide)).2.2 (by decide)⟩

/-- Counterexample to claim C4 as stated: the dateless marker IS contained as
a full substring inside content that only holds the dated marker, because it
is a prefix of the dated marker. -/
theorem dateless_marker_contained_counterexample :
    (generateComment "example" none).data
      <:+: (generateComment "example" (some "2023-10-01")).data := by
  decide

/-- Claim C4 (amended): for every name and non-empty date the dateless and
dated markers are distinct strings, yet the dateless marker is a substring
of any content containing the dated marker (it is a prefix of it), so a
substring search for the dateless marker also hits dated ones. -/
theorem dateless_marker_inside_dated (name date : String) (h : date ≠ "") :
    generateComment name none ≠ generateComment name (some date)
    ∧ (generateComment name none).data <+: (generateComment name (some date)).data
    ∧ ∀ content : List Char,
        (generateComment name (some date)).data <:+: content →
          (generateComment name none).data <:+: content := by
  rw [generateComment_some_of_ne h]
  refine ⟨?_, ?_, ?_⟩
  · intro heq
    have hlen := congrArg (fun s => s.data.length) heq
    simp only [String.data_append, List.length_append] at hlen
    have hd : date.data ≠ [] := data_ne_nil_of_ne_empty h
    have : 0 < date.data.length := List.length_pos.2 hd
    omega
  · exact ⟨(" on " ++ date).data, by simp [String.data_append]⟩
  · intro content hinf
    obtain ⟨s, t, hst⟩ := hinf
    exact ⟨s, (" on " ++ date).data ++ t,
      by rw [← hst]; simp [String.data_append, List.append_assoc]⟩

/-- Witness for C4 (amended) at a concrete name and date. -/
theorem dateless_marker_inside_dated_witness :
    ("2023-10-01" ≠ ("" : String))
    ∧ (generateComment "example" none).data
        <+: (generateComment "example" (some "2023-10-01")).data :=
  ⟨by decide, (dateless_marker_inside_dated "example" "2023-10-01" (by decide)).2.1⟩

/-- Counterexample to claim C5 as stated: a block whose opening fence is
glued directly after prose (no newline before the backticks) and whose
closing backticks are followed by prose on the same line is still recognized
— the regex anchors neither the opening fence to a line start nor the
closing fence to a line end. -/
theorem extractCodeBlock_glued_fence_counterexample :
    extractCodeBlock ("a```ts\ncode\n```b".data) = Except.ok ("code".data) := by
  rfl

/-- Claim C5 (amended): a match always has the shape «three backticks, a
newline-free language tag, a newline, the content, a newline, three
backticks» — the content is framed by newlines on both sides — but the
opening backticks need not sit at a line start and the closing backticks may
be followed by more text on their line.  In particular an input with no
newline at all (a fence glued against prose on a single line) is never
recognized and counts as zero blocks. -/
theorem extractCodeBlock_fence_shape (r : List Char) :
    (∀ content rest, findMatch r = some (content, rest) →
      ∃ pre lang, (∀ x ∈ lang, x ≠ '\n') ∧
        r = pre ++ tick :: tick :: tick ::
          (lang ++ '\n' :: (content ++ '\n' :: tick :: tick :: tick :: rest)))
    ∧ ('\n' ∉ r → extractCodeBlock r = Except.error 0) := by
  refine ⟨fun content rest hm => findMatch_spec hm, fun h => ?_⟩
  have hm := findMatch_eq_none_of_no_newline h
  have h0 : gMatches r = [] := (gMatches_eq_nil_iff r).2 hm
  simp [extractCodeBlock, hm, h0]

/-- Witness for C5 (amended): a single-line glued fence yields zero blocks. -/
theorem extractCodeBlock_fence_shape_witness :
    '\n' ∉ ("text``` x ```more".data)
    ∧ extractCodeBlock ("text``` x ```more".data) = Except.error 0 :=
  ⟨by decide, (extractCodeBlock_fence_shape _).2 (by decide)⟩

/-- Claim C6: on the spec's scenario-1 input the extractor returns exactly
the string "code block". -/
theorem extractCodeBlock_scenario_one :
    extractCodeBlock ("Here is some text\n```typescript\ncode block\n```\nMore text".data)
      = Except.ok ("code block".data) := by
  rfl

/-- Claim C7: when `extractCodeBlock` fails on the model response,
`processFile` performs no write — the updated content is only produced after
a successful extraction, so the file content stays unchanged. -/
theorem processFile_no_write_on_extract_error
    (fileContent : List Char) (promptName date : String) (response : List Char)
    (e : Nat) (h : extractCodeBlock response = Except.error e) :
    processFile fileContent promptName date response = none := by
  by_cases hskip : (generateComment promptName (some date)).data <:+: fileContent
  · simp [processFile, hskip]
  · simp [processFile, hskip, h]

/-- Witness for C7 at a concrete fence-free response. -/
theorem processFile_no_write_on_extract_error_witness :
    extractCodeBlock ("no code here".data) = Except.error 0
    ∧ processFile ("let x = 1".data) "prompt.review" "2024-01-01" ("no code here".data)
        = none :=
  ⟨by rfl, processFile_no_write_on_extract_error _ _ _ _ 0 (by rfl)⟩

/-- Claim C8: for every name and non-empty date the dated marker equals the
dateless marker followed by " on " and the date, hence the dateless marker is
a strict prefix of the dated one; any content containing the dated marker
therefore contains the dateless marker, which is exactly what the skip check
`requiresProcessing` relies on when it searches for the dateless marker. -/
theorem dated_marker_extends_dateless (name date : String) (h : date ≠ "") :
    generateComment name (some date) = generateComment name none ++ " on " ++ date
    ∧ (generateComment name none).data <+: (generateComment name (some date)).data
    ∧ generateComment name none ≠ generateComment name (some date)
    ∧ ∀ content : List Char,
        (generateComment name (some date)).data <:+: content →
          (generateComment name none).data <:+: content
          ∧ requiresProcessing content name = false := by
  obtain ⟨hne, hp, hcl⟩ := dateless_marker_inside_dated name date h
  refine ⟨generateComment_some_of_ne h, hp, hne, fun content hinf => ?_⟩
  have hdateless := hcl content hinf
  exact ⟨hdateless, by simp [requiresProcessing, hdateless]⟩

/-- Witness for C8 at a concrete name, date and content. -/
theorem dated_marker_extends_dateless_witness :
    ("2023-10-01" ≠ ("" : String))
    ∧ generateComment "example" (some "2023-10-01")
        = generateComment "example" none ++ " on " ++ "2023-10-01"
    ∧ requiresProcessing (generateComment "example" (some "2023-10-01")).data "example"
        = false := by
  have h := dated_marker_extends_dateless "example" "2023-10-01" (by decide)
  exact ⟨by decide, h.1, (h.2.2.2 _ ⟨[], [], by simp⟩).2⟩

/-- Claim C9: when the global search finds exactly one match, the single
(non-global) search also succeeds, so `extractCodeBlock` returns a string on
that branch; consequently an error can never report a count of 1 — the
function either throws with count 0 or at least 2, or returns a value. -/
theorem extractCodeBlock_single_count_returns (r : List Char) :
    ((gMatches r).length = 1 →
      (findMatch r).isSome = true ∧ ∃ content, extractCodeBlock r = Except.ok content)
    ∧ (∀ e, extractCodeBlock r = Except.error e → e ≠ 1) := by
  constructor
  · intro h1
    cases hm : findMatch r with
    | none =>
      rw [(gMatches_eq_nil_iff r).2 hm] at h1
      simp at h1
    | some p =>
      obtain ⟨c, rest⟩ := p
      exact ⟨rfl, c, by simp [extractCodeBlock, hm, h1]⟩
  · intro e he
    cases hm : findMatch r with
    | none =>
      have h0 : gMatches r = [] := (gMatches_eq_nil_iff r).2 hm
      simp [extractCodeBlock, hm, h0] at he
      omega
    | some p =>
      obtain ⟨c, rest⟩ := p
      by_cases hl : (gMatches r).length = 1
      · simp [extractCodeBlock, hm, hl] at he
      · simp [extractCodeBlock, hm, hl] at he
        omega

/-- Witness for C9 at a concrete single-block input. -/
theorem extractCodeBlock_single_count_returns_witness :
    (gMatches ("x\n```\ny\n```".data)).length = 1
    ∧ ∃ content, extractCodeBlock ("x\n```\ny\n```".data) = Except.ok content :=
  ⟨by rfl, ((extractCodeBlock_single_count_returns _).1 (by rfl)).2⟩

/-- Claim C10: on the input made of the lines "three backticks", "a", "three
backticks", "prose", "three backticks" joined by newlines, the trailing
unpaired fence line does not produce a second pattern match, so the global
count is 1 and `extractCodeBlock` succeeds with the first block's content. -/
theorem extractCodeBlock_unpaired_trailing_fence :
    extractCodeBlock ("```\na\n```\nprose\n```".data) = Except.ok ("a".data)
    ∧ (gMatches ("```\na\n```\nprose\n```".data)).length = 1 := by
  exact ⟨by rfl, by rfl⟩
